import Mathlib

/-!
Verification of the `pocketcasts` API client
(`src/resources/lib/python-pocketcasts/pocketcasts/api.py`).

The Python client is embedded shallowly:
* JSON values become the inductive `Json`; Python dicts become association
  lists with unique keys (`JDict`), with `jlookup` (subscript), `jpop`
  (`dict.pop`, failing when the key is absent, like a `KeyError`) and
  `jinsert` (`d[k] = v`: replace in place if the key exists, else append,
  matching Python's insertion-order semantics).
* An HTTP request built by `_make_req` becomes the record `Request`
  (method, url, headers, json body).  The network itself is an oracle
  `server : Request → Option Json` giving the parsed JSON of the response
  (`none` models a transport failure or a non-JSON body).
* Each client method becomes a pure function returning the list of requests
  it actually issued, in order, together with its result.  A Python `raise`
  becomes `Except.error` with a `PCError` naming the error kind of the
  spec's taxonomy: the generic `Exception('Invalid status.')` /
  `Exception("Invalid method")` sites are `invalidArgument`,
  `Exception('Sorry your update failed.')` is `serverRejected`,
  `Exception("Login Failed")` is `authenticationError`, and Python
  `KeyError` / `TypeError` / `AttributeError` on malformed payloads are
  `keyError` / `typeError`.
* The `Podcast` / `Episode` entity classes (constructed as
  `Podcast(uuid, self, **attempt)` and `Episode(uuid, pod, **epi)`) become
  records holding the primary identifier, the back-reference (for
  episodes), and the remaining keyword arguments as a `JDict`; the owning
  client reference carries no information in the pure model and is dropped.
-/

set_option autoImplicit false

namespace Pocketcasts

/-- A JSON value, as produced by `response.json()`. -/
inductive Json where
  | null : Json
  | bool : Bool → Json
  | num : Int → Json
  | str : String → Json
  | arr : List Json → Json
  | obj : List (String × Json) → Json

/-- A Python dict with JSON values (association list, unique keys,
insertion order preserved). -/
abbrev JDict := List (String × Json)

/-- Python `d[k]` on a dict: the value at key `k`, if present. -/
def jlookup (d : JDict) (k : String) : Option Json :=
  match d with
  | [] => none
  | (k', v) :: rest => if k' = k then some v else jlookup rest k

/-- Python `d.pop(k)` (no default): the value at `k` and the dict without
that entry; `none` models the `KeyError` raised when `k` is absent. -/
def jpop (d : JDict) (k : String) : Option (Json × JDict) :=
  match d with
  | [] => none
  | (k', v) :: rest =>
    if k' = k then some (v, rest)
    else
      match jpop rest k with
      | none => none
      | some (w, rest') => some (w, (k', v) :: rest')

/-- Python `d[k] = v`: replace the entry in place if the key is present
(keeping its position), else append it at the end. -/
def jinsert (k : String) (v : Json) (d : JDict) : JDict :=
  match d with
  | [] => [(k, v)]
  | (k', v') :: rest =>
    if k' = k then (k, v) :: rest else (k', v') :: jinsert k v rest

/-- The error kinds of the client (spec §7 taxonomy, mapped onto the
`raise` sites and built-in Python exceptions of `api.py`). -/
inductive PCError where
  | invalidArgument : String → PCError
  | serverRejected : String → PCError
  | authenticationError : String → PCError
  | keyError : String → PCError
  | typeError : String → PCError
  | transportError : PCError
deriving DecidableEq, Repr

/-- The HTTP verb actually passed to `requests.request`. -/
inductive HttpMethod where
  | get : HttpMethod
  | post : HttpMethod
deriving DecidableEq, Repr

/-- An outgoing HTTP request as assembled by `Pocketcasts._make_req`:
verb, URL, headers, and the JSON body (`none` for GET requests). -/
structure Request where
  method : HttpMethod
  url : String
  headers : List (String × String)
  body : Option JDict

/-- The JSON body of a POST built by `_make_req`: a non-dict `data`
(including the default `None`) is replaced by `{}`, then `data['v'] = 1`. -/
def jsonBody (data : Option Json) : JDict :=
  match data with
  | some (.obj fields) => jinsert "v" (.num 1) fields
  | _ => [("v", Json.num 1)]

/-- Python `json()` subscript `j[k]`: `keyError` when the key is absent,
`typeError` when `j` is not a dict. -/
def jindex (j : Json) (k : String) : Except PCError Json :=
  match j with
  | .obj fields =>
    match jlookup fields k with
    | some v => .ok v
    | none => .error (.keyError k)
  | _ => .error (.typeError "not subscriptable")

/-- Embeds `Pocketcasts._make_req(url, method, data)` (api.py lines 26–51):
builds the request that `requests.request` would send.  `data` is
`some (Json.obj _)` for a dict payload, `some _` for a non-dict payload
and `none` for the default `data=None`; any non-dict is replaced by `{}`
before `data['v'] = 1`.  An unknown method selector raises
`Exception("Invalid method")` without building any request. -/
def _make_req (authtoken : String) (url : String) (method : String)
    (data : Option Json) : Except PCError Request :=
  let headers := [("Authorization", "Bearer " ++ authtoken)]
  if method = "GET" then
    .ok { method := .get, url := url, headers := headers, body := none }
  else if method = "JSON" then
    .ok { method := .post, url := url, headers := headers,
          body := some (jsonBody data) }
  else
    .error (.invalidArgument "Invalid method")

/-- The POST request `_make_req` builds for method `'JSON'`. -/
def postReq (authtoken url : String) (data : Option Json) : Request :=
  { method := .post, url := url,
    headers := [("Authorization", "Bearer " ++ authtoken)],
    body := some (jsonBody data) }

/-- The parsed-JSON view of the network: what `resp.json()` yields for a
given outgoing request; `none` models a transport failure or a body that
is not JSON (so that `.json()` raises). -/
abbrev Server := Request → Option Json

/-- Embeds `Pocketcasts._login` (api.py lines 53–72), returning the final value of
`self._authtoken` (initialised to `""` by `__init__`) together with the
outcome.  `loginAttempt` is the outcome of
`attempt = self._make_req(login_url, data=data)` (api.py line 66) plus
its parsing: `none` when `requests.request` itself raised — that call
sits *outside* the `try` of lines 68–72, so the transport error
propagates unchanged and is never turned into `Login Failed`;
`some none` when a response object arrived but `attempt.json()` raised
inside the `try` (non-JSON body); `some (some j)` when it parsed to `j`.
Inside the `try`, the token field is stored whatever its JSON value is,
and any failure (no JSON body, missing `token` key, non-dict body) is
caught and re-raised as `Exception("Login Failed")`, leaving the token
untouched. -/
def _login (loginAttempt : Option (Option Json)) : Json × Except PCError Bool :=
  match loginAttempt with
  | none => (.str "", .error .transportError)
  | some resp =>
    match resp with
    | none => (.str "", .error (.authenticationError "Login Failed"))
    | some j =>
      match jindex j "token" with
      | .ok v => (v, .ok true)
      | .error _ => (.str "", .error (.authenticationError "Login Failed"))

/-- The Python object state after `Pocketcasts.__init__(email, password)`
(api.py lines 13–24). -/
structure Client where
  _username : String
  _password : String
  _authtoken : Json

/-- Embeds `Pocketcasts.__init__` (api.py lines 13–24): sets `_authtoken = ""`
then runs `_login`; `loginAttempt` is the outcome of the login POST and
its parsing, as in `_login`.  Returns the object state together with the
exception propagating out of the constructor, if any. -/
def pocketcastsInit (email password : String) (loginAttempt : Option (Option Json)) :
    Client × Option PCError :=
  let (tok, res) := _login loginAttempt
  ({ _username := email, _password := password, _authtoken := tok },
   match res with
   | .ok _ => none
   | .error e => some e)

/-- The `Podcast(uuid, self, **attempt)` entity: primary identifier plus
the remaining keyword arguments (the owning client reference is dropped in
the pure model). -/
structure Podcast where
  uuid : String
  fields : JDict

/-- The `Episode(uuid, podcast, **epi)` entity: primary identifier (the
raw JSON value popped from the payload), the back-reference to the owning
`Podcast`, and the remaining keyword arguments. -/
structure Episode where
  uuid : Json
  podcast : Podcast
  fields : JDict

/-- Embeds `Pocketcasts.update_playing_status(podcast, episode, status)`
(api.py lines 335–351): raises `Exception('Invalid status.')` when
`status not in [0, 2, 3]`, otherwise posts the update.  Returns the list
of requests issued together with the outcome. -/
def update_playing_status (authtoken : String) (podcastUuid episodeUuid : String)
    (status : Int) : List Request × Except PCError Unit :=
  if ¬ (status = 0 ∨ status = 2 ∨ status = 3) then
    ([], .error (.invalidArgument "Invalid status."))
  else
    match _make_req authtoken "https://api.pocketcasts.com/sync/update_episode" "JSON"
        (some (.obj [("status", .num status), ("podcast", .str podcastUuid),
                     ("uuid", .str episodeUuid)])) with
    | .ok req => ([req], .ok ())
    | .error e => ([], .error e)

/-- The part of `update_played_position` after the request is built:
send it, then run `if attempt.json()['status'] != 'ok': raise ...` and
`return True`. -/
def updatePlayedPositionBody (server : Server) (req : Request) :
    List Request × Except PCError Bool :=
  match server req with
  | none => ([req], .error .transportError)
  | some j =>
    match jindex j "status" with
    | .error e => ([req], .error e)
    | .ok v =>
      match v with
      | .str s =>
        if s = "ok" then ([req], .ok true)
        else ([req], .error (.serverRejected "Sorry your update failed."))
      | _ => ([req], .error (.serverRejected "Sorry your update failed."))

/-- Embeds `Pocketcasts.update_played_position(podcast, episode, position)`
(api.py lines 353–377): posts the update, then raises
`Exception('Sorry your update failed.')` unless the response's `status`
field equals `'ok'`, in which case it returns `True`. -/
def update_played_position (authtoken : String) (podcastUuid episodeUuid : String)
    (playing_status position : Int) (server : Server) :
    List Request × Except PCError Bool :=
  match _make_req authtoken "https://api.pocketcasts.com/sync/update_episode" "JSON"
      (some (.obj [("status", .num playing_status), ("podcast", .str podcastUuid),
                   ("uuid", .str episodeUuid), ("position", .num position)])) with
  | .error e => ([], .error e)
  | .ok req => updatePlayedPositionBody server req

/-- The GET request issued by `get_podcast` for a given UUID. -/
def getPodcastReq (authtoken uuid : String) : Request :=
  { method := .get,
    url := "https://podcast-api.pocketcasts.com/podcast/full/" ++ uuid ++ "/0/3/2000",
    headers := [("Authorization", "Bearer " ++ authtoken)],
    body := none }

/-- The part of `get_podcast` after the request is built: send it, take
`json()['podcast']`, `pop('uuid')`, build `Podcast(uuid, self, **attempt)`
with the *input* uuid as identifier. -/
def getPodcastBody (uuid : String) (server : Server) (req : Request) :
    List Request × Except PCError Podcast :=
  match server req with
  | none => ([req], .error .transportError)
  | some j =>
    match jindex j "podcast" with
    | .error e => ([req], .error e)
    | .ok p =>
      match p with
      | .obj fields =>
        match jpop fields "uuid" with
        | none => ([req], .error (.keyError "uuid"))
        | some (_, rest) => ([req], .ok { uuid := uuid, fields := rest })
      | _ => ([req], .error (.typeError "pop on non-dict"))

/-- Embeds `Pocketcasts.get_podcast(uuid)` (api.py lines 165–179): GET the
podcast page, take `json()['podcast']`, `pop('uuid')` from it (a
`KeyError` when absent), and build `Podcast(uuid, self, **attempt)` with
the *input* uuid as identifier. -/
def get_podcast (authtoken uuid : String) (server : Server) :
    List Request × Except PCError Podcast :=
  match _make_req authtoken
      ("https://podcast-api.pocketcasts.com/podcast/full/" ++ uuid ++ "/0/3/2000")
      "GET" none with
  | .error e => ([], .error e)
  | .ok req => getPodcastBody uuid server req

/-- The `for epi in attempt['episodes']` loop body of
`get_podcast_episodes`: each element must be a dict, its `uuid` is popped
and `Episode(uuid, podcast=pod, **epi)` is appended. -/
def mkEpisodes (pod : Podcast) : List Json → Except PCError (List Episode)
  | [] => .ok []
  | e :: rest =>
    match e with
    | .obj fields =>
      match jpop fields "uuid" with
      | none => .error (.keyError "uuid")
      | some (u, fs) =>
        match mkEpisodes pod rest with
        | .ok es => .ok ({ uuid := u, podcast := pod, fields := fs } :: es)
        | .error err => .error err
    | _ => .error (.typeError "pop on non-dict")

/-- The part of `get_podcast_episodes` after the request is built: send
it and build one `Episode` per element of `json()['podcast']['episodes']`,
each with `podcast=pod`. -/
def getPodcastEpisodesBody (pod : Podcast) (server : Server) (req : Request) :
    List Request × Except PCError (List Episode) :=
  match server req with
  | none => ([req], .error .transportError)
  | some j =>
    match jindex j "podcast" with
    | .error e => ([req], .error e)
    | .ok p =>
      match jindex p "episodes" with
      | .error e => ([req], .error e)
      | .ok (.arr eps) => ([req], mkEpisodes pod eps)
      | .ok _ => ([req], .error (.typeError "not iterable"))

/-- Embeds `Pocketcasts.get_podcast_episodes(pod, sort)` (api.py lines 181–219),
see `getPodcastEpisodesBody`.  The `sort` parameter is accepted but never
used in the body, exactly as in the source. -/
def get_podcast_episodes (authtoken : String) (pod : Podcast) (sort : Int)
    (server : Server) : List Request × Except PCError (List Episode) :=
  match _make_req authtoken
      ("https://podcast-api.pocketcasts.com/podcast/full/" ++ pod.uuid ++ "/0/3/2000")
      "GET" none with
  | .error e => ([], .error e)
  | .ok req => getPodcastEpisodesBody pod server req

/-- Lookup in the per-invocation `podcasts` memo dict (keys are podcast
UUID strings). -/
def memoLookup (memo : List (String × Podcast)) (k : String) : Option Podcast :=
  match memo with
  | [] => none
  | (k', p) :: rest => if k' = k then some p else memoLookup rest k

/-- One iteration of the episode-resolution loop shared by
`get_new_releases`, `get_in_progress`, `get_starred` and `get_up_next`
(api.py lines 249–317): read the podcast UUID from field `key` of the
episode, consult the memo dict (`if pod_uuid not in podcasts`), calling
`get_podcast` only on a miss, then `pop('uuid')` (and additionally
`pop('podcast')` when `alsoPopPodcast`, as in `get_up_next`) and build the
`Episode`.  Returns the requests issued and, on success, the extended memo
and the new episode. -/
def resolveOne (authtoken key : String) (alsoPopPodcast : Bool) (server : Server)
    (memo : List (String × Podcast)) (e : Json) :
    List Request × Except PCError (List (String × Podcast) × Episode) :=
  match e with
  | .obj fields =>
    match jlookup fields key with
    | none => ([], .error (.keyError key))
    | some pv =>
      match pv with
      | .str pu =>
        let step : List Request × Except PCError (List (String × Podcast) × Podcast) :=
          match memoLookup memo pu with
          | some pod => ([], .ok (memo, pod))
          | none =>
            match get_podcast authtoken pu server with
            | (l, .ok pod) => (l, .ok (memo ++ [(pu, pod)], pod))
            | (l, .error err) => (l, .error err)
        match step with
        | (l, .error err) => (l, .error err)
        | (l, .ok (memo2, pod)) =>
          match jpop fields "uuid" with
          | none => (l, .error (.keyError "uuid"))
          | some (u, fs1) =>
            if alsoPopPodcast then
              match jpop fs1 "podcast" with
              | none => (l, .error (.keyError "podcast"))
              | some (_, fs2) =>
                (l, .ok (memo2, { uuid := u, podcast := pod, fields := fs2 }))
            else
              (l, .ok (memo2, { uuid := u, podcast := pod, fields := fs1 }))
      | _ => ([], .error (.typeError "podcast uuid is not a string"))
  | _ => ([], .error (.typeError "episode is not a dict"))

/-- The whole `for episode in attempt.json()['episodes']` resolution loop,
threading the memo dict through the iterations and concatenating the
issued requests. -/
def resolveEpisodes (authtoken key : String) (alsoPopPodcast : Bool) (server : Server)
    (memo : List (String × Podcast)) :
    List Json → List Request × Except PCError (List Episode)
  | [] => ([], .ok [])
  | e :: rest =>
    match resolveOne authtoken key alsoPopPodcast server memo e with
    | (l1, .error err) => (l1, .error err)
    | (l1, .ok (memo2, ep)) =>
      match resolveEpisodes authtoken key alsoPopPodcast server memo2 rest with
      | (l2, res) =>
        (l1 ++ l2,
         match res with
         | .ok es => .ok (ep :: es)
         | .error err => .error err)

/-- Common shape of the four episode-list endpoints
(`get_new_releases`, `get_in_progress`, `get_starred`, `get_up_next`)
after the POST request is built: send it, take `json()['episodes']`, and
run the resolution loop with an empty (freshly created) memo dict. -/
def fetchEpisodeListBody (authtoken key : String) (alsoPopPodcast : Bool)
    (server : Server) (req : Request) :
    List Request × Except PCError (List Episode) :=
  match server req with
  | none => ([req], .error .transportError)
  | some j =>
    match jindex j "episodes" with
    | .error e => ([req], .error e)
    | .ok (.arr eps) =>
      match resolveEpisodes authtoken key alsoPopPodcast server [] eps with
      | (l, res) => (req :: l, res)
    | .ok _ => ([req], .error (.typeError "not iterable"))

/-- See `fetchEpisodeListBody`: build the POST, then run the shared
episode-list shape. -/
def fetchEpisodeList (authtoken url : String) (data : Option Json)
    (key : String) (alsoPopPodcast : Bool) (server : Server) :
    List Request × Except PCError (List Episode) :=
  match _make_req authtoken url "JSON" data with
  | .error e => ([], .error e)
  | .ok req => fetchEpisodeListBody authtoken key alsoPopPodcast server req

/-- Embeds `Pocketcasts.get_new_releases()` (api.py lines 249–264). -/
def get_new_releases (authtoken : String) (server : Server) :
    List Request × Except PCError (List Episode) :=
  fetchEpisodeList authtoken "https://api.pocketcasts.com/user/new_releases"
    none "podcastUuid" false server

/-- Embeds `Pocketcasts.get_in_progress()` (api.py lines 266–282). -/
def get_in_progress (authtoken : String) (server : Server) :
    List Request × Except PCError (List Episode) :=
  fetchEpisodeList authtoken "https://api.pocketcasts.com/user/in_progress"
    none "podcastUuid" false server

/-- Embeds `Pocketcasts.get_starred()` (api.py lines 284–299). -/
def get_starred (authtoken : String) (server : Server) :
    List Request × Except PCError (List Episode) :=
  fetchEpisodeList authtoken "https://api.pocketcasts.com/user/starred"
    none "podcastUuid" false server

/-- Embeds `Pocketcasts.get_up_next()` (api.py lines 301–317): same loop but the
nested UUID is field `'podcast'` (not `'podcastUuid'`), which is also
popped before constructing the `Episode`, and the POST carries
`{'version': 2}`. -/
def get_up_next (authtoken : String) (server : Server) :
    List Request × Except PCError (List Episode) :=
  fetchEpisodeList authtoken "https://api.pocketcasts.com/up_next/list"
    (some (.obj [("version", .num 2)])) "podcast" true server

/-- The podcast-UUID string carried by a raw episode JSON in field `key`
(`'podcastUuid'`, or `'podcast'` for `get_up_next`); `none` when the
episode is not a dict, lacks the field, or holds a non-string there. -/
def epPodKey (key : String) (e : Json) : Option String :=
  match e with
  | .obj fields =>
    match jlookup fields key with
    | some (.str pu) => some pu
    | _ => none
  | _ => none

/-- The podcast UUIDs on which the resolution loop calls `get_podcast`,
in order: the first occurrence of each distinct UUID not already known to
the memo dict (computed from the raw episode list; meaningful on runs
where every episode is well-formed). -/
def newUuids (key : String) (known : List String) : List Json → List String
  | [] => []
  | e :: rest =>
    match epPodKey key e with
    | some pu =>
      if pu ∈ known then newUuids key known rest
      else pu :: newUuids key (pu :: known) rest
    | none => []

/-- The server payload of the C3 counterexample: the nested `podcast`
object has no `uuid` field. -/
def missingUuidServer : Server :=
  fun _ => some (Json.obj [("podcast", Json.obj [("title", Json.str "x")])])

/-- A concrete server for `get_up_next`: the up-next payload holds one
episode whose `podcast` field (`"B"`) differs from its `podcastUuid`
field (`"A"`); any other URL answers as a podcast-detail endpoint. -/
def upNextServer : Server := fun r =>
  if r.url = "https://api.pocketcasts.com/up_next/list" then
    some (Json.obj [("episodes", Json.arr [Json.obj
      [("uuid", Json.str "e1"), ("podcast", Json.str "B"),
       ("podcastUuid", Json.str "A")]])])
  else
    some (Json.obj [("podcast",
      Json.obj [("uuid", Json.str "ignored"), ("title", Json.str "t")])])

/-- A concrete server for `get_in_progress`: three episodes over the two
distinct podcast UUIDs `"p1"` and `"p2"`; any other URL answers as a
podcast-detail endpoint. -/
def inProgressServer : Server := fun r =>
  if r.url = "https://api.pocketcasts.com/user/in_progress" then
    some (Json.obj [("episodes", Json.arr [
      Json.obj [("uuid", Json.str "e1"), ("podcastUuid", Json.str "p1")],
      Json.obj [("uuid", Json.str "e2"), ("podcastUuid", Json.str "p2")],
      Json.obj [("uuid", Json.str "e3"), ("podcastUuid", Json.str "p1")]])])
  else
    some (Json.obj [("podcast",
      Json.obj [("uuid", Json.str "x"), ("title", Json.str "T")])])

/-! ## Helper lemmas -/

theorem jlookup_jinsert_self (d : JDict) (k : String) (v : Json) :
    jlookup (jinsert k v d) k = some v := by
  induction d with
  | nil => simp [jinsert, jlookup]
  | cons p rest ih =>
    obtain ⟨k', v'⟩ := p
    by_cases h : k' = k <;> simp [jinsert, jlookup, h, ih]

theorem jlookup_jinsert_ne (d : JDict) (k k' : String) (v : Json) (h : k' ≠ k) :
    jlookup (jinsert k v d) k' = jlookup d k' := by
  have hne : k ≠ k' := Ne.symm h
  induction d with
  | nil => simp [jinsert, jlookup, hne]
  | cons p rest ih =>
    obtain ⟨k'', v''⟩ := p
    by_cases hk : k'' = k
    · subst hk
      simp [jinsert, jlookup, hne]
    · simp only [jinsert, if_neg hk, jlookup]
      by_cases hk' : k'' = k' <;> simp [hk', ih]

theorem jinsert_filter (d : JDict) (k : String) (v : Json) :
    (jinsert k v d).filter (fun p => p.1 != k) = d.filter (fun p => p.1 != k) := by
  induction d with
  | nil => simp [jinsert]
  | cons p rest ih =>
    obtain ⟨k', v'⟩ := p
    by_cases h : k' = k
    · subst h
      simp [jinsert]
    · simp [jinsert, h, List.filter_cons, bne_iff_ne, ih]

theorem make_req_json_eq (authtoken url : String) (data : Option Json) :
    _make_req authtoken url "JSON" data = .ok (postReq authtoken url data) := rfl

theorem memoLookup_some_mem (memo : List (String × Podcast)) (k : String)
    (p : Podcast) (h : memoLookup memo k = some p) : (k, p) ∈ memo := by
  induction memo with
  | nil => simp [memoLookup] at h
  | cons q rest ih =>
    obtain ⟨k', p'⟩ := q
    by_cases hk : k' = k
    · subst hk
      simp [memoLookup] at h
      simp [h]
    · simp [memoLookup, hk] at h
      exact List.mem_cons_of_mem _ (ih h)

theorem memoLookup_none_not_mem (memo : List (String × Podcast)) (k : String)
    (h : memoLookup memo k = none) : k ∉ memo.map Prod.fst := by
  induction memo with
  | nil => simp
  | cons q rest ih =>
    obtain ⟨k', p'⟩ := q
    by_cases hk : k' = k
    · subst hk; simp [memoLookup] at h
    · simp only [memoLookup, if_neg hk] at h
      simp only [List.map_cons, List.mem_cons]
      rintro (rfl | hmem)
      · exact hk rfl
      · exact ih h hmem

theorem memoLookup_mem_isSome (memo : List (String × Podcast)) (k : String)
    (h : k ∈ memo.map Prod.fst) : memoLookup memo k ≠ none := by
  induction memo with
  | nil => simp at h
  | cons q rest ih =>
    obtain ⟨k', p'⟩ := q
    by_cases hk : k' = k
    · subst hk; simp [memoLookup]
    · simp only [List.map_cons, List.mem_cons] at h
      rcases h with rfl | hmem
      · exact absurd rfl hk
      · simpa [memoLookup, hk] using ih hmem

theorem get_podcast_body_eq (authtoken uuid : String) (server : Server) :
    get_podcast authtoken uuid server =
      getPodcastBody uuid server (getPodcastReq authtoken uuid) := rfl

theorem get_podcast_log (authtoken uuid : String) (server : Server) :
    (get_podcast authtoken uuid server).1 = [getPodcastReq authtoken uuid] := by
  rw [get_podcast_body_eq]
  rcases hs : server (getPodcastReq authtoken uuid) with _ | j
  · simp [getPodcastBody, hs]
  · rcases hj : jindex j "podcast" with e | p
    · simp [getPodcastBody, hs, hj]
    · rcases p with _ | b | n | s | xs | fields <;>
        simp [getPodcastBody, hs, hj]
      rcases hp : jpop fields "uuid" with _ | ⟨w, rest⟩ <;>
        simp [hp]

theorem get_podcast_ok_uuid (authtoken uuid : String) (server : Server)
    (p : Podcast) (h : (get_podcast authtoken uuid server).2 = .ok p) :
    p.uuid = uuid := by
  rw [get_podcast_body_eq] at h
  rcases hs : server (getPodcastReq authtoken uuid) with _ | j
  · simp [getPodcastBody, hs] at h
  · rcases hj : jindex j "podcast" with e | q
    · simp [getPodcastBody, hs, hj] at h
    · rcases q with _ | b | n | s | xs | fields <;>
        simp [getPodcastBody, hs, hj] at h
      rcases hp : jpop fields "uuid" with _ | ⟨w, rest⟩
      · simp [hp] at h
      · simp [hp] at h
        rw [← h]

theorem jlookup_jsonBody_v (data : Option Json) :
    jlookup (jsonBody data) "v" = some (.num 1) := by
  rcases data with _ | j
  · simp [jsonBody, jlookup]
  · rcases j with _ | b | n | s | xs | fields <;>
      simp [jsonBody, jlookup, jlookup_jinsert_self]

theorem mkEpisodes_ok_podcast (pod : Podcast) :
    ∀ (eps : List Json) (es : List Episode),
      mkEpisodes pod eps = .ok es → ∀ e ∈ es, e.podcast = pod := by
  intro eps
  induction eps with
  | nil =>
    intro es h e he
    simp only [mkEpisodes] at h
    injection h with h
    subst h
    cases he
  | cons ej rest ih =>
    intro es h e he
    rcases ej with _ | b | n | s | xs | fields <;> simp only [mkEpisodes] at h <;>
      try exact Except.noConfusion h
    rcases hp : jpop fields "uuid" with _ | ⟨u, fs⟩
    · rw [hp] at h; exact Except.noConfusion h
    · rw [hp] at h
      rcases hr : mkEpisodes pod rest with err | es'
      · rw [hr] at h; exact Except.noConfusion h
      · rw [hr] at h
        injection h with h
        subst h
        rcases List.mem_cons.mp he with rfl | hmem
        · rfl
        · exact ih es' hr e hmem

theorem memoLookup_ne_none_mem (memo : List (String × Podcast)) (k : String)
    (h : memoLookup memo k ≠ none) : k ∈ memo.map Prod.fst := by
  rcases hv : memoLookup memo k with _ | p
  · exact absurd hv h
  · exact List.mem_map_of_mem Prod.fst (memoLookup_some_mem memo k p hv)

theorem newUuids_not_mem_known (key : String) :
    ∀ (eps : List Json) (known : List String) (u : String),
      u ∈ newUuids key known eps → u ∉ known := by
  intro eps
  induction eps with
  | nil =>
    intro known u h
    simp [newUuids] at h
  | cons e rest ih =>
    intro known u h
    rcases hpk : epPodKey key e with _ | pu
    · simp [newUuids, hpk] at h
    · by_cases hk : pu ∈ known
      · simp only [newUuids, hpk, if_pos hk] at h
        exact ih known u h
      · simp only [newUuids, hpk, if_neg hk] at h
        rcases List.mem_cons.mp h with rfl | hmem
        · exact hk
        · intro hu
          exact ih (pu :: known) u hmem (List.mem_cons_of_mem _ hu)

theorem newUuids_nodup (key : String) :
    ∀ (eps : List Json) (known : List String), (newUuids key known eps).Nodup := by
  intro eps
  induction eps with
  | nil =>
    intro known
    simp [newUuids]
  | cons e rest ih =>
    intro known
    rcases hpk : epPodKey key e with _ | pu
    · simp [newUuids, hpk]
    · by_cases hk : pu ∈ known
      · simp only [newUuids, hpk, if_pos hk]
        exact ih known
      · simp only [newUuids, hpk, if_neg hk, List.nodup_cons]
        refine ⟨?_, ih (pu :: known)⟩
        intro hmem
        exact newUuids_not_mem_known key rest (pu :: known) pu hmem
          (List.mem_cons_self pu known)

theorem newUuids_mem (key : String) :
    ∀ (eps : List Json) (known : List String) (u : String),
      (∀ e ∈ eps, ∃ w, epPodKey key e = some w) →
      (u ∈ newUuids key known eps ↔
        (u ∉ known ∧ ∃ e ∈ eps, epPodKey key e = some u)) := by
  intro eps
  induction eps with
  | nil =>
    intro known u _
    simp [newUuids]
  | cons e rest ih =>
    intro known u hwf
    obtain ⟨w, hw⟩ := hwf e (List.mem_cons_self e rest)
    have hwfr : ∀ e' ∈ rest, ∃ w', epPodKey key e' = some w' :=
      fun e' he' => hwf e' (List.mem_cons_of_mem _ he')
    by_cases hk : w ∈ known
    · simp only [newUuids, hw, if_pos hk]
      rw [ih known u hwfr]
      constructor
      · rintro ⟨hnk, e', he', hkey⟩
        exact ⟨hnk, e', List.mem_cons_of_mem _ he', hkey⟩
      · rintro ⟨hnk, e', he', hkey⟩
        rcases List.mem_cons.mp he' with rfl | hmem
        · rw [hw] at hkey
          injection hkey with hkey
          exact absurd hk (hkey ▸ hnk)
        · exact ⟨hnk, e', hmem, hkey⟩
    · simp only [newUuids, hw, if_neg hk, List.mem_cons]
      rw [ih (w :: known) u hwfr]
      constructor
      · rintro (rfl | ⟨hnk, e', he', hkey⟩)
        · exact ⟨hk, e, Or.inl rfl, hw⟩
        · have hnk' : u ∉ known := fun hu => hnk (List.mem_cons_of_mem _ hu)
          exact ⟨hnk', e', Or.inr he', hkey⟩
      · rintro ⟨hnk, e', he', hkey⟩
        by_cases hu : u = w
        · exact Or.inl hu
        · right
          refine ⟨?_, ?_⟩
          · intro hmem
            rcases List.mem_cons.mp hmem with rfl | hmem'
            · exact hu rfl
            · exact hnk hmem'
          · rcases he' with rfl | hmem'
            · rw [hw] at hkey
              injection hkey with hkey
              exact absurd hkey.symm hu
            · exact ⟨e', hmem', hkey⟩

theorem forall2_exists_left {α β : Type} {R : α → β → Prop} :
    ∀ {l1 : List α} {l2 : List β}, List.Forall₂ R l1 l2 →
      ∀ a ∈ l1, ∃ b, R a b := by
  intro l1 l2 h
  induction h with
  | nil =>
    intro a ha
    simp at ha
  | cons hr _ ih =>
    intro a ha
    rcases List.mem_cons.mp ha with rfl | hm
    · exact ⟨_, hr⟩
    · exact ih a hm

theorem resolveOne_ok_spec (authtoken key : String) (alsoPopPodcast : Bool)
    (server : Server) (memo memo2 : List (String × Podcast)) (e : Json)
    (ep : Episode) (l : List Request)
    (hinv : ∀ q ∈ memo, q.2.uuid = q.1)
    (h : resolveOne authtoken key alsoPopPodcast server memo e =
      (l, .ok (memo2, ep))) :
    ∃ pu, epPodKey key e = some pu ∧ ep.podcast.uuid = pu ∧
      (∀ q ∈ memo2, q.2.uuid = q.1) ∧
      ((memoLookup memo pu ≠ none ∧ l = [] ∧ memo2 = memo) ∨
       (memoLookup memo pu = none ∧ l = [getPodcastReq authtoken pu] ∧
        memo2.map Prod.fst = memo.map Prod.fst ++ [pu])) := by
  rcases e with _ | b | n | s | xs | fields <;> simp only [resolveOne] at h <;>
    try exact Except.noConfusion (congrArg Prod.snd h)
  rcases hl : jlookup fields key with _ | pv
  · simp only [hl] at h
    exact Except.noConfusion (congrArg Prod.snd h)
  · simp only [hl] at h
    rcases pv with _ | b | n | pu | vxs | vf <;>
      try exact Except.noConfusion (congrArg Prod.snd h)
    refine ⟨pu, by simp [epPodKey, hl], ?_⟩
    rcases hm : memoLookup memo pu with _ | pod
    · rcases hg : get_podcast authtoken pu server with ⟨lg, rg⟩
      rcases rg with err | pod
      · simp only [hm, hg] at h
        exact Except.noConfusion (congrArg Prod.snd h)
      · simp only [hm, hg] at h
        have hpodu : pod.uuid = pu :=
          get_podcast_ok_uuid authtoken pu server pod (by rw [hg])
        have hlg : lg = [getPodcastReq authtoken pu] := by
          rw [← get_podcast_log authtoken pu server, hg]
        rcases hp : jpop fields "uuid" with _ | ⟨u, fs1⟩
        · simp only [hp] at h
          exact Except.noConfusion (congrArg Prod.snd h)
        · simp only [hp] at h
          by_cases hb : alsoPopPodcast = true
          · rw [if_pos hb] at h
            rcases hp2 : jpop fs1 "podcast" with _ | ⟨w2, fs2⟩
            · simp only [hp2] at h
              exact Except.noConfusion (congrArg Prod.snd h)
            · simp only [hp2] at h
              rw [Prod.mk.injEq] at h
              obtain ⟨h1, h2⟩ := h
              injection h2 with h2
              rw [Prod.mk.injEq] at h2
              obtain ⟨h2a, h2b⟩ := h2
              subst h2a
              subst h2b
              subst h1
              refine ⟨hpodu, ?_, Or.inr ⟨rfl, hlg, by simp⟩⟩
              intro q hq
              rcases List.mem_append.mp hq with hq1 | hq2
              · exact hinv q hq1
              · rcases List.mem_singleton.mp hq2 with rfl
                exact hpodu
          · rw [if_neg hb] at h
            rw [Prod.mk.injEq] at h
            obtain ⟨h1, h2⟩ := h
            injection h2 with h2
            rw [Prod.mk.injEq] at h2
            obtain ⟨h2a, h2b⟩ := h2
            subst h2a
            subst h2b
            subst h1
            refine ⟨hpodu, ?_, Or.inr ⟨rfl, hlg, by simp⟩⟩
            intro q hq
            rcases List.mem_append.mp hq with hq1 | hq2
            · exact hinv q hq1
            · rcases List.mem_singleton.mp hq2 with rfl
              exact hpodu
    · simp only [hm] at h
      have hpodu : pod.uuid = pu :=
        hinv (pu, pod) (memoLookup_some_mem memo pu pod hm)
      rcases hp : jpop fields "uuid" with _ | ⟨u, fs1⟩
      · simp only [hp] at h
        exact Except.noConfusion (congrArg Prod.snd h)
      · simp only [hp] at h
        by_cases hb : alsoPopPodcast = true
        · rw [if_pos hb] at h
          rcases hp2 : jpop fs1 "podcast" with _ | ⟨w2, fs2⟩
          · simp only [hp2] at h
            exact Except.noConfusion (congrArg Prod.snd h)
          · simp only [hp2] at h
            rw [Prod.mk.injEq] at h
            obtain ⟨h1, h2⟩ := h
            injection h2 with h2
            rw [Prod.mk.injEq] at h2
            obtain ⟨h2a, h2b⟩ := h2
            subst h2a
            subst h2b
            subst h1
            exact ⟨hpodu, hinv, Or.inl ⟨by simp [hm], rfl, rfl⟩⟩
        · rw [if_neg hb] at h
          rw [Prod.mk.injEq] at h
          obtain ⟨h1, h2⟩ := h
          injection h2 with h2
          rw [Prod.mk.injEq] at h2
          obtain ⟨h2a, h2b⟩ := h2
          subst h2a
          subst h2b
          subst h1
          exact ⟨hpodu, hinv, Or.inl ⟨by simp [hm], rfl, rfl⟩⟩

theorem resolveEpisodes_ok_spec (authtoken key : String) (alsoPopPodcast : Bool)
    (server : Server) :
    ∀ (eps : List Json) (memo : List (String × Podcast)) (known : List String)
      (l : List Request) (es : List Episode),
      (∀ q ∈ memo, q.2.uuid = q.1) →
      (∀ u, u ∈ known ↔ u ∈ memo.map Prod.fst) →
      resolveEpisodes authtoken key alsoPopPodcast server memo eps = (l, .ok es) →
      l = (newUuids key known eps).map (getPodcastReq authtoken) ∧
      List.Forall₂ (fun e ep => epPodKey key e = some ep.podcast.uuid) eps es := by
  intro eps
  induction eps with
  | nil =>
    intro memo known l es hinv hkn h
    simp only [resolveEpisodes] at h
    rw [Prod.mk.injEq] at h
    obtain ⟨h1, h2⟩ := h
    injection h2 with h2
    subst h1
    subst h2
    exact ⟨by simp [newUuids], List.Forall₂.nil⟩
  | cons e rest ih =>
    intro memo known l es hinv hkn h
    simp only [resolveEpisodes] at h
    rcases h1 : resolveOne authtoken key alsoPopPodcast server memo e with ⟨l1, r1⟩
    rcases r1 with err | ⟨memo2, ep⟩
    · simp only [h1] at h
      exact Except.noConfusion (congrArg Prod.snd h)
    · simp only [h1] at h
      rcases h2 : resolveEpisodes authtoken key alsoPopPodcast server memo2 rest
        with ⟨l2, r2⟩
      rcases r2 with err | es'
      · simp only [h2] at h
        exact Except.noConfusion (congrArg Prod.snd h)
      · simp only [h2] at h
        rw [Prod.mk.injEq] at h
        obtain ⟨hl, hes⟩ := h
        injection hes with hes
        subst hl
        subst hes
        obtain ⟨pu, hpk, hepu, hinv2, hcase⟩ :=
          resolveOne_ok_spec authtoken key alsoPopPodcast server memo memo2 e ep l1
            hinv h1
        rcases hcase with ⟨hm, hl1, hmemo2⟩ | ⟨hm, hl1, hmap⟩
        · subst hmemo2
          have hkmem : pu ∈ known := (hkn pu).mpr (memoLookup_ne_none_mem memo2 pu hm)
          obtain ⟨hl2, hfa⟩ := ih memo2 known l2 es' hinv hkn h2
          subst hl1
          subst hl2
          refine ⟨?_, List.Forall₂.cons (by rw [hpk, hepu]) hfa⟩
          simp only [newUuids, hpk, if_pos hkmem, List.nil_append]
        · have hknot : pu ∉ known :=
            fun hmem => memoLookup_mem_isSome memo pu ((hkn pu).mp hmem) hm
          have hkn2 : ∀ u, u ∈ (pu :: known) ↔ u ∈ memo2.map Prod.fst := by
            intro u
            rw [hmap]
            simp only [List.mem_cons, List.mem_append, List.mem_singleton, hkn u]
            tauto
          obtain ⟨hl2, hfa⟩ := ih memo2 (pu :: known) l2 es' hinv2 hkn2 h2
          subst hl1
          subst hl2
          refine ⟨?_, List.Forall₂.cons (by rw [hpk, hepu]) hfa⟩
          simp only [newUuids, hpk, if_neg hknot, List.map_cons, List.singleton_append]

theorem fetchEpisodeList_ok_spec (authtoken url : String) (data : Option Json)
    (key : String) (alsoPopPodcast : Bool) (server : Server) (j : Json)
    (eps : List Json) (l : List Request) (es : List Episode)
    (hs : server (postReq authtoken url data) = some j)
    (hj : jindex j "episodes" = .ok (.arr eps))
    (h : fetchEpisodeList authtoken url data key alsoPopPodcast server = (l, .ok es)) :
    l = postReq authtoken url data ::
        (newUuids key [] eps).map (getPodcastReq authtoken) ∧
    (newUuids key [] eps).Nodup ∧
    (∀ u, u ∈ newUuids key [] eps ↔ ∃ e ∈ eps, epPodKey key e = some u) ∧
    List.Forall₂ (fun e ep => epPodKey key e = some ep.podcast.uuid) eps es := by
  have he : fetchEpisodeList authtoken url data key alsoPopPodcast server =
      fetchEpisodeListBody authtoken key alsoPopPodcast server
        (postReq authtoken url data) := rfl
  rw [he] at h
  rw [fetchEpisodeListBody] at h
  rw [hs] at h
  simp only [hj] at h
  rcases hr : resolveEpisodes authtoken key alsoPopPodcast server [] eps with ⟨l', res⟩
  simp only [hr] at h
  rw [Prod.mk.injEq] at h
  obtain ⟨hl, hres⟩ := h
  subst hl
  subst hres
  obtain ⟨hl', hfa⟩ := resolveEpisodes_ok_spec authtoken key alsoPopPodcast server
    eps [] [] l' es (by simp) (by simp) hr
  have hwf : ∀ e ∈ eps, ∃ w, epPodKey key e = some w := by
    intro e hmem
    obtain ⟨ep, hep⟩ := forall2_exists_left hfa e hmem
    exact ⟨ep.podcast.uuid, hep⟩
  refine ⟨by rw [hl'], newUuids_nodup key eps [], ?_, hfa⟩
  intro u
  rw [newUuids_mem key eps [] u hwf]
  simp

/-! ## Claim theorems -/

/-- C1: for every status value outside `{0, 2, 3}`,
`update_playing_status` fails with the `InvalidArgument` error
`'Invalid status.'` and issues no HTTP request at all (the request log is
empty: `_make_req` is never reached). -/
theorem update_playing_status_invalid_status (authtoken podcastUuid episodeUuid : String)
    (status : Int) (h0 : status ≠ 0) (h2 : status ≠ 2) (h3 : status ≠ 3) :
    update_playing_status authtoken podcastUuid episodeUuid status =
      ([], .error (.invalidArgument "Invalid status.")) := by
  have hc : ¬ (status = 0 ∨ status = 2 ∨ status = 3) := by
    push_neg
    exact ⟨h0, h2, h3⟩
  unfold update_playing_status
  rw [if_pos hc]

/-- Witness for C1 at the concrete status `1`. -/
theorem update_playing_status_invalid_status_witness :
    update_playing_status "tok" "pod" "epi" 1 =
      ([], .error (.invalidArgument "Invalid status.")) :=
  update_playing_status_invalid_status "tok" "pod" "epi" 1
    (by decide) (by decide) (by decide)

/-- C2: against any JSON response, `update_played_position` returns `True`
iff the response's `status` field is exactly the string `"ok"`; whenever
the field holds any other value the call raises the `ServerRejected` error
`'Sorry your update failed.'` instead. -/
theorem update_played_position_ok_iff (authtoken podcastUuid episodeUuid : String)
    (playing_status position : Int) (resp : Json) :
    ((update_played_position authtoken podcastUuid episodeUuid playing_status position
        (fun _ => some resp)).2 = .ok true ↔
      jindex resp "status" = .ok (.str "ok")) ∧
    (∀ v, jindex resp "status" = .ok v → v ≠ .str "ok" →
      (update_played_position authtoken podcastUuid episodeUuid playing_status position
          (fun _ => some resp)).2 =
        .error (.serverRejected "Sorry your update failed.")) := by
  have he : update_played_position authtoken podcastUuid episodeUuid playing_status
      position (fun _ => some resp) =
      updatePlayedPositionBody (fun _ => some resp)
        (postReq authtoken "https://api.pocketcasts.com/sync/update_episode"
          (some (.obj [("status", .num playing_status), ("podcast", .str podcastUuid),
                       ("uuid", .str episodeUuid), ("position", .num position)]))) := rfl
  rw [he]
  rcases hj : jindex resp "status" with e | v
  · constructor
    · simp [updatePlayedPositionBody, hj]
    · intro w hw hne
      exact Except.noConfusion hw
  · constructor
    · rcases v with _ | b | n | s | xs | fields <;>
        simp [updatePlayedPositionBody, hj]
      by_cases hs : s = "ok" <;> simp [hs]
    · intro w hw hne
      injection hw with hw
      subst hw
      rcases v with _ | b | n | s | xs | fields <;>
        simp [updatePlayedPositionBody, hj]
      have hsne : s ≠ "ok" := by
        intro hh
        exact hne (by rw [hh])
      simp [hsne]

/-- Witness for C2 at the concrete response `{status: "failed"}`. -/
theorem update_played_position_ok_iff_witness :
    (update_played_position "tok" "pod" "epi" 2 60
        (fun _ => some (Json.obj [("status", Json.str "failed")]))).2 =
      .error (.serverRejected "Sorry your update failed.") :=
  (update_played_position_ok_iff "tok" "pod" "epi" 2 60
      (Json.obj [("status", Json.str "failed")])).2
    (Json.str "failed") rfl (by simp)

/-- C3 counterexample: on a payload whose `podcast` object has no `uuid`
field, `get_podcast` does not return any Podcast — `attempt.pop('uuid')`
raises a `KeyError` — contradicting the claim for the quantified case of
a missing payload uuid field. -/
theorem get_podcast_missing_uuid_counterexample :
    (get_podcast "tok" "abc" missingUuidServer).2 = .error (.keyError "uuid") ∧
    ¬ ∃ p : Podcast, (get_podcast "tok" "abc" missingUuidServer).2 = .ok p := by
  refine ⟨rfl, ?_⟩
  rintro ⟨p, hp⟩
  rw [show (get_podcast "tok" "abc" missingUuidServer).2 =
      Except.error (PCError.keyError "uuid") from rfl] at hp
  exact Except.noConfusion hp

/-- C3 (amended): whenever `get_podcast` returns a Podcast its identifier
is the input UUID, whatever the payload contained; and for every payload
whose `podcast` object does contain a `uuid` field — of any value,
including one differing from the input — the call succeeds and the
payload's own uuid is discarded in favour of the input UUID. -/
theorem get_podcast_identifier_amended (authtoken uuid : String) (server : Server) :
    (∀ p, (get_podcast authtoken uuid server).2 = .ok p → p.uuid = uuid) ∧
    (∀ j fields u rest,
      server (getPodcastReq authtoken uuid) = some j →
      jindex j "podcast" = .ok (.obj fields) →
      jpop fields "uuid" = some (u, rest) →
      get_podcast authtoken uuid server =
        ([getPodcastReq authtoken uuid], .ok { uuid := uuid, fields := rest })) := by
  constructor
  · intro p h
    exact get_podcast_ok_uuid authtoken uuid server p h
  · intro j fields u rest hs hjp hp
    rw [get_podcast_body_eq]
    simp [getPodcastBody, hs, hjp, hp]

/-- Witness for C3 (amended), on a payload whose own uuid field is
`"OTHER"` while the input UUID is `"abc"`. -/
theorem get_podcast_identifier_amended_witness :
    get_podcast "tok" "abc"
        (fun _ => some (Json.obj [("podcast",
          Json.obj [("uuid", Json.str "OTHER"), ("title", Json.str "x")])])) =
      ([getPodcastReq "tok" "abc"],
       .ok { uuid := "abc", fields := [("title", Json.str "x")] }) :=
  (get_podcast_identifier_amended "tok" "abc"
      (fun _ => some (Json.obj [("podcast",
        Json.obj [("uuid", Json.str "OTHER"), ("title", Json.str "x")])]))).2
    (Json.obj [("podcast", Json.obj [("uuid", Json.str "OTHER"), ("title", Json.str "x")])])
    [("uuid", Json.str "OTHER"), ("title", Json.str "x")]
    (Json.str "OTHER") [("title", Json.str "x")] rfl rfl rfl

/-- C4: every `Episode` in a list returned by `get_podcast_episodes`
holds as back-reference exactly the `Podcast` value passed in (object
identity in Python becoming structural equality in the pure model, since
the very argument `pod` is threaded into each `Episode`). -/
theorem get_podcast_episodes_same_podcast (authtoken : String) (pod : Podcast)
    (sort : Int) (server : Server) (es : List Episode)
    (h : (get_podcast_episodes authtoken pod sort server).2 = .ok es) :
    ∀ e ∈ es, e.podcast = pod := by
  have he : get_podcast_episodes authtoken pod sort server =
      getPodcastEpisodesBody pod server (getPodcastReq authtoken pod.uuid) := rfl
  rw [he] at h
  rcases hs : server (getPodcastReq authtoken pod.uuid) with _ | j
  · simp [getPodcastEpisodesBody, hs] at h
  · rcases hj : jindex j "podcast" with e1 | p
    · simp [getPodcastEpisodesBody, hs, hj] at h
    · rcases hj2 : jindex p "episodes" with e2 | q
      · simp [getPodcastEpisodesBody, hs, hj, hj2] at h
      · rcases q with _ | b | n | s | xs | fields <;>
          simp [getPodcastEpisodesBody, hs, hj, hj2] at h
        exact mkEpisodes_ok_podcast pod xs es h

/-- Witness for C4 on a one-episode payload. -/
theorem get_podcast_episodes_same_podcast_witness :
    ({ uuid := Json.str "e1", podcast := { uuid := "P", fields := [] },
       fields := [] } : Episode).podcast = ({ uuid := "P", fields := [] } : Podcast) :=
  get_podcast_episodes_same_podcast "tok" { uuid := "P", fields := [] } 3
    (fun _ => some (Json.obj [("podcast",
      Json.obj [("episodes", Json.arr [Json.obj [("uuid", Json.str "e1")]])])]))
    [{ uuid := Json.str "e1", podcast := { uuid := "P", fields := [] }, fields := [] }]
    rfl
    { uuid := Json.str "e1", podcast := { uuid := "P", fields := [] }, fields := [] }
    (List.mem_singleton.mpr rfl)

/-- C6: for every method selector other than `'GET'` and `'JSON'`,
`_make_req` fails with the `InvalidArgument` error `'Invalid method'` and
builds no request (so nothing can be sent). -/
theorem make_req_invalid_method (authtoken url method : String) (data : Option Json)
    (hg : method ≠ "GET") (hj : method ≠ "JSON") :
    _make_req authtoken url method data =
      .error (.invalidArgument "Invalid method") := by
  unfold _make_req
  rw [if_neg hg, if_neg hj]

/-- Witness for C6 at the concrete selector `'PUT'`. -/
theorem make_req_invalid_method_witness :
    _make_req "tok" "http://x" "PUT" none =
      .error (.invalidArgument "Invalid method") :=
  make_req_invalid_method "tok" "http://x" "PUT" none (by decide) (by decide)

/-- C7: every request `_make_req` builds carries the
`Authorization: Bearer <token>` header, and every request built with the
JSON/POST selector has a body whose `v` field is `1`, whatever the
payload (dict or not, present or not). -/
theorem make_req_auth_header_and_version (authtoken url method : String)
    (data : Option Json) (req : Request)
    (h : _make_req authtoken url method data = .ok req) :
    ("Authorization", "Bearer " ++ authtoken) ∈ req.headers ∧
      (method = "JSON" →
        ∃ b, req.body = some b ∧ jlookup b "v" = some (.num 1)) := by
  unfold _make_req at h
  by_cases hg : method = "GET"
  · rw [if_pos hg] at h
    injection h with h
    subst h
    refine ⟨by simp, ?_⟩
    intro hjm
    rw [hjm] at hg
    exact absurd hg (by decide)
  · rw [if_neg hg] at h
    by_cases hjm : method = "JSON"
    · rw [if_pos hjm] at h
      injection h with h
      subst h
      exact ⟨by simp, fun _ => ⟨jsonBody data, rfl, jlookup_jsonBody_v data⟩⟩
    · rw [if_neg hjm] at h
      exact Except.noConfusion h

/-- Witness for C7 at a concrete POST with no payload. -/
theorem make_req_auth_header_and_version_witness :
    ("Authorization", "Bearer " ++ "tok") ∈ (postReq "tok" "http://x" none).headers ∧
      ("JSON" = "JSON" →
        ∃ b, (postReq "tok" "http://x" none).body = some b ∧
          jlookup b "v" = some (.num 1)) :=
  make_req_auth_header_and_version "tok" "http://x" "JSON" none
    (postReq "tok" "http://x" none) rfl

/-- C9: `get_podcast_episodes` behaves identically — same request log,
and in fact the same entire outcome — for any two sort-order values: the
`sort` argument is never threaded into the outgoing request. -/
theorem get_podcast_episodes_sort_unused (authtoken : String) (pod : Podcast)
    (server : Server) (sort1 sort2 : Int) :
    (get_podcast_episodes authtoken pod sort1 server).1 =
      (get_podcast_episodes authtoken pod sort2 server).1 ∧
    get_podcast_episodes authtoken pod sort1 server =
      get_podcast_episodes authtoken pod sort2 server :=
  ⟨rfl, rfl⟩

/-- C10: with the JSON/POST selector a dict payload becomes the body with
`v = 1` inserted — the `v` entry reads `1`, every other key reads exactly
as before, and the non-`v` entries are unchanged as a list — while a
non-dict payload (including the default `None`) is replaced by the fresh
body `{v: 1}`. -/
theorem make_req_json_body_frame (authtoken url : String) :
    (∀ fields : JDict,
      _make_req authtoken url "JSON" (some (.obj fields)) =
        .ok (postReq authtoken url (some (.obj fields))) ∧
      (postReq authtoken url (some (.obj fields))).body =
        some (jinsert "v" (.num 1) fields) ∧
      jlookup (jinsert "v" (.num 1) fields) "v" = some (.num 1) ∧
      (∀ k, k ≠ "v" →
        jlookup (jinsert "v" (.num 1) fields) k = jlookup fields k) ∧
      (jinsert "v" (.num 1) fields).filter (fun p => p.1 != "v") =
        fields.filter (fun p => p.1 != "v")) ∧
    (∀ data : Option Json, (∀ fields : JDict, data ≠ some (.obj fields)) →
      _make_req authtoken url "JSON" data = .ok (postReq authtoken url data) ∧
      (postReq authtoken url data).body = some [("v", Json.num 1)]) := by
  constructor
  · intro fields
    refine ⟨rfl, rfl, jlookup_jinsert_self _ _ _, ?_, jinsert_filter _ _ _⟩
    intro k hk
    exact jlookup_jinsert_ne _ _ _ _ hk
  · intro data hd
    rcases data with _ | j
    · exact ⟨rfl, rfl⟩
    · rcases j with _ | b | n | s | xs | fields
      · exact ⟨rfl, rfl⟩
      · exact ⟨rfl, rfl⟩
      · exact ⟨rfl, rfl⟩
      · exact ⟨rfl, rfl⟩
      · exact ⟨rfl, rfl⟩
      · exact absurd rfl (hd fields)

/-- Witness for C10: frame on the key `"a"` of a dict payload that
already held `v = 5`, and the replacement body for `data=None`. -/
theorem make_req_json_body_frame_witness :
    jlookup (jinsert "v" (.num 1) [("a", Json.str "x"), ("v", Json.num 5)]) "a" =
      jlookup [("a", Json.str "x"), ("v", Json.num 5)] "a" ∧
    _make_req "tok" "http://x" "JSON" none = .ok (postReq "tok" "http://x" none) ∧
    (postReq "tok" "http://x" none).body = some [("v", Json.num 1)] :=
  ⟨((make_req_json_body_frame "tok" "http://x").1
      [("a", Json.str "x"), ("v", Json.num 5)]).2.2.2.1 "a" (by decide),
   ((make_req_json_body_frame "tok" "http://x").2 none (by intro f hf; cases hf)).1,
   ((make_req_json_body_frame "tok" "http://x").2 none (by intro f hf; cases hf)).2⟩

/-- C8 counterexample: when the login request itself fails (the
`requests.request` call at api.py line 66 raises), the transport error
propagates unchanged out of the constructor — that call sits outside the
`try` of api.py lines 68–72 — so construction fails with the propagated
transport error, not with the `AuthenticationError` the claim asserts
for request failures. -/
theorem pocketcasts_init_transport_counterexample :
    pocketcastsInit "e@x" "pw" none =
      ({ _username := "e@x", _password := "pw", _authtoken := Json.str "" },
       some PCError.transportError) ∧
    PCError.transportError ≠ PCError.authenticationError "Login Failed" :=
  ⟨rfl, by decide⟩

/-- C8 (amended): construction stores the token field of a received login
response (whatever JSON value it holds) and succeeds; a received response
without a token — missing field, non-dict body, or a body that is not
JSON — fails with the `AuthenticationError` `'Login Failed'`; but when
the login request itself fails before yielding a response, the underlying
transport error propagates unchanged instead.  In every failure case the
stored token remains the initial empty string. -/
theorem pocketcasts_init_token_storage (email password : String)
    (loginAttempt : Option (Option Json)) :
    (∀ j v, loginAttempt = some (some j) → jindex j "token" = .ok v →
      pocketcastsInit email password loginAttempt =
        ({ _username := email, _password := password, _authtoken := v }, none)) ∧
    (∀ j e, loginAttempt = some (some j) → jindex j "token" = .error e →
      pocketcastsInit email password loginAttempt =
        ({ _username := email, _password := password, _authtoken := .str "" },
         some (.authenticationError "Login Failed"))) ∧
    (loginAttempt = some none →
      pocketcastsInit email password loginAttempt =
        ({ _username := email, _password := password, _authtoken := .str "" },
         some (.authenticationError "Login Failed"))) ∧
    (loginAttempt = none →
      pocketcastsInit email password loginAttempt =
        ({ _username := email, _password := password, _authtoken := .str "" },
         some .transportError)) := by
  refine ⟨?_, ?_, ?_, ?_⟩
  · rintro j v rfl hjv
    simp [pocketcastsInit, _login, hjv]
  · rintro j e rfl hje
    simp [pocketcastsInit, _login, hje]
  · rintro rfl
    rfl
  · rintro rfl
    rfl

/-- C5 counterexample: for `get_up_next` the nested-podcast key consulted
is `'podcast'`, not `'podcastUuid'`: on an up-next episode carrying
`podcast = "B"` and `podcastUuid = "A"`, the single returned Episode
references the Podcast with UUID `"B"`, which does not match the
episode's `podcastUuid` field `"A"`. -/
theorem get_up_next_podcast_key_counterexample :
    (get_up_next "tok" upNextServer).2 =
      .ok [{ uuid := Json.str "e1",
             podcast := { uuid := "B", fields := [("title", Json.str "t")] },
             fields := [("podcastUuid", Json.str "A")] }] ∧
    jlookup [("podcastUuid", Json.str "A")] "podcastUuid" = some (Json.str "A") ∧
    ("B" : String) ≠ "A" :=
  ⟨rfl, rfl, by decide⟩

/-- C5 (amended): on every successful run of `get_new_releases`,
`get_in_progress`, `get_starred` or `get_up_next`, the request log is the
episode-list POST followed by exactly one `get_podcast` GET per distinct
podcast UUID appearing in the episode list (`newUuids`, a duplicate-free
enumeration of exactly the UUIDs carried by the episodes), in first-seen
order; and each returned Episode references the resolved Podcast whose
UUID matches the episode's `podcastUuid` field — its `podcast` field for
`get_up_next`.  The memo dict is created empty inside each invocation, so
the count is per invocation. -/
theorem episode_list_resolution (authtoken : String) (server : Server) (j : Json)
    (eps : List Json) (l : List Request) (es : List Episode) :
    (server (postReq authtoken "https://api.pocketcasts.com/user/new_releases" none) =
        some j →
      jindex j "episodes" = .ok (.arr eps) →
      get_new_releases authtoken server = (l, .ok es) →
      l = postReq authtoken "https://api.pocketcasts.com/user/new_releases" none ::
          (newUuids "podcastUuid" [] eps).map (getPodcastReq authtoken) ∧
      (newUuids "podcastUuid" [] eps).Nodup ∧
      (∀ u, u ∈ newUuids "podcastUuid" [] eps ↔
        ∃ e ∈ eps, epPodKey "podcastUuid" e = some u) ∧
      List.Forall₂ (fun e ep => epPodKey "podcastUuid" e = some ep.podcast.uuid)
        eps es) ∧
    (server (postReq authtoken "https://api.pocketcasts.com/user/in_progress" none) =
        some j →
      jindex j "episodes" = .ok (.arr eps) →
      get_in_progress authtoken server = (l, .ok es) →
      l = postReq authtoken "https://api.pocketcasts.com/user/in_progress" none ::
          (newUuids "podcastUuid" [] eps).map (getPodcastReq authtoken) ∧
      (newUuids "podcastUuid" [] eps).Nodup ∧
      (∀ u, u ∈ newUuids "podcastUuid" [] eps ↔
        ∃ e ∈ eps, epPodKey "podcastUuid" e = some u) ∧
      List.Forall₂ (fun e ep => epPodKey "podcastUuid" e = some ep.podcast.uuid)
        eps es) ∧
    (server (postReq authtoken "https://api.pocketcasts.com/user/starred" none) =
        some j →
      jindex j "episodes" = .ok (.arr eps) →
      get_starred authtoken server = (l, .ok es) →
      l = postReq authtoken "https://api.pocketcasts.com/user/starred" none ::
          (newUuids "podcastUuid" [] eps).map (getPodcastReq authtoken) ∧
      (newUuids "podcastUuid" [] eps).Nodup ∧
      (∀ u, u ∈ newUuids "podcastUuid" [] eps ↔
        ∃ e ∈ eps, epPodKey "podcastUuid" e = some u) ∧
      List.Forall₂ (fun e ep => epPodKey "podcastUuid" e = some ep.podcast.uuid)
        eps es) ∧
    (server (postReq authtoken "https://api.pocketcasts.com/up_next/list"
        (some (.obj [("version", Json.num 2)]))) = some j →
      jindex j "episodes" = .ok (.arr eps) →
      get_up_next authtoken server = (l, .ok es) →
      l = postReq authtoken "https://api.pocketcasts.com/up_next/list"
            (some (.obj [("version", Json.num 2)])) ::
          (newUuids "podcast" [] eps).map (getPodcastReq authtoken) ∧
      (newUuids "podcast" [] eps).Nodup ∧
      (∀ u, u ∈ newUuids "podcast" [] eps ↔
        ∃ e ∈ eps, epPodKey "podcast" e = some u) ∧
      List.Forall₂ (fun e ep => epPodKey "podcast" e = some ep.podcast.uuid)
        eps es) := by
  refine ⟨?_, ?_, ?_, ?_⟩ <;> intro hs hj h
  · exact fetchEpisodeList_ok_spec authtoken
      "https://api.pocketcasts.com/user/new_releases" none "podcastUuid" false
      server j eps l es hs hj h
  · exact fetchEpisodeList_ok_spec authtoken
      "https://api.pocketcasts.com/user/in_progress" none "podcastUuid" false
      server j eps l es hs hj h
  · exact fetchEpisodeList_ok_spec authtoken
      "https://api.pocketcasts.com/user/starred" none "podcastUuid" false
      server j eps l es hs hj h
  · exact fetchEpisodeList_ok_spec authtoken
      "https://api.pocketcasts.com/up_next/list"
      (some (.obj [("version", Json.num 2)])) "podcast" true
      server j eps l es hs hj h

/-- Witness for C5 (amended): the spec's scenario — `get_in_progress`
returns three episodes over the two distinct podcast UUIDs `"p1"`,
`"p2"`; the log holds the list POST plus exactly two podcast-detail GETs,
and the three episodes partition over the two resolved Podcasts. -/
theorem episode_list_resolution_witness :
    (postReq "tok" "https://api.pocketcasts.com/user/in_progress" none ::
        [getPodcastReq "tok" "p1", getPodcastReq "tok" "p2"]) =
      postReq "tok" "https://api.pocketcasts.com/user/in_progress" none ::
        (newUuids "podcastUuid" []
          [Json.obj [("uuid", Json.str "e1"), ("podcastUuid", Json.str "p1")],
           Json.obj [("uuid", Json.str "e2"), ("podcastUuid", Json.str "p2")],
           Json.obj [("uuid", Json.str "e3"), ("podcastUuid", Json.str "p1")]]).map
          (getPodcastReq "tok") ∧
    (newUuids "podcastUuid" []
      [Json.obj [("uuid", Json.str "e1"), ("podcastUuid", Json.str "p1")],
       Json.obj [("uuid", Json.str "e2"), ("podcastUuid", Json.str "p2")],
       Json.obj [("uuid", Json.str "e3"), ("podcastUuid", Json.str "p1")]]).Nodup ∧
    (∀ u, u ∈ newUuids "podcastUuid" []
        [Json.obj [("uuid", Json.str "e1"), ("podcastUuid", Json.str "p1")],
         Json.obj [("uuid", Json.str "e2"), ("podcastUuid", Json.str "p2")],
         Json.obj [("uuid", Json.str "e3"), ("podcastUuid", Json.str "p1")]] ↔
      ∃ e ∈ [Json.obj [("uuid", Json.str "e1"), ("podcastUuid", Json.str "p1")],
             Json.obj [("uuid", Json.str "e2"), ("podcastUuid", Json.str "p2")],
             Json.obj [("uuid", Json.str "e3"), ("podcastUuid", Json.str "p1")]],
        epPodKey "podcastUuid" e = some u) ∧
    List.Forall₂ (fun (e : Json) (ep : Episode) =>
        epPodKey "podcastUuid" e = some ep.podcast.uuid)
      [Json.obj [("uuid", Json.str "e1"), ("podcastUuid", Json.str "p1")],
       Json.obj [("uuid", Json.str "e2"), ("podcastUuid", Json.str "p2")],
       Json.obj [("uuid", Json.str "e3"), ("podcastUuid", Json.str "p1")]]
      ([{ uuid := Json.str "e1",
          podcast := { uuid := "p1", fields := [("title", Json.str "T")] },
          fields := [("podcastUuid", Json.str "p1")] },
        { uuid := Json.str "e2",
          podcast := { uuid := "p2", fields := [("title", Json.str "T")] },
          fields := [("podcastUuid", Json.str "p2")] },
        { uuid := Json.str "e3",
          podcast := { uuid := "p1", fields := [("title", Json.str "T")] },
          fields := [("podcastUuid", Json.str "p1")] }] : List Episode) :=
  (episode_list_resolution "tok" inProgressServer
      (Json.obj [("episodes", Json.arr
        [Json.obj [("uuid", Json.str "e1"), ("podcastUuid", Json.str "p1")],
         Json.obj [("uuid", Json.str "e2"), ("podcastUuid", Json.str "p2")],
         Json.obj [("uuid", Json.str "e3"), ("podcastUuid", Json.str "p1")]])])
      [Json.obj [("uuid", Json.str "e1"), ("podcastUuid", Json.str "p1")],
       Json.obj [("uuid", Json.str "e2"), ("podcastUuid", Json.str "p2")],
       Json.obj [("uuid", Json.str "e3"), ("podcastUuid", Json.str "p1")]]
      (postReq "tok" "https://api.pocketcasts.com/user/in_progress" none ::
        [getPodcastReq "tok" "p1", getPodcastReq "tok" "p2"])
      [{ uuid := Json.str "e1",
         podcast := { uuid := "p1", fields := [("title", Json.str "T")] },
         fields := [("podcastUuid", Json.str "p1")] },
       { uuid := Json.str "e2",
         podcast := { uuid := "p2", fields := [("title", Json.str "T")] },
         fields := [("podcastUuid", Json.str "p2")] },
       { uuid := Json.str "e3",
         podcast := { uuid := "p1", fields := [("title", Json.str "T")] },
         fields := [("podcastUuid", Json.str "p1")] }]).2.1
    rfl rfl rfl

/-- Witness for C8 (amended): a response carrying token `"T"`, a received
response whose body is not JSON, and a login request that itself
failed. -/
theorem pocketcasts_init_token_storage_witness :
    pocketcastsInit "e@x" "pw" (some (some (Json.obj [("token", Json.str "T")]))) =
      ({ _username := "e@x", _password := "pw", _authtoken := Json.str "T" }, none) ∧
    pocketcastsInit "e@x" "pw" (some none) =
      ({ _username := "e@x", _password := "pw", _authtoken := Json.str "" },
       some (.authenticationError "Login Failed")) ∧
    pocketcastsInit "e@x" "pw" none =
      ({ _username := "e@x", _password := "pw", _authtoken := Json.str "" },
       some PCError.transportError) :=
  ⟨(pocketcasts_init_token_storage "e@x" "pw"
      (some (some (Json.obj [("token", Json.str "T")])))).1
    (Json.obj [("token", Json.str "T")]) (Json.str "T") rfl rfl,
   (pocketcasts_init_token_storage "e@x" "pw" (some none)).2.2.1 rfl,
   (pocketcasts_init_token_storage "e@x" "pw" none).2.2.2 rfl⟩

end Pocketcasts
